import Mathlib

/-!
Shallow embedding of the transaction load generator in
cmd/tool/cmd/sendtx.go and proofs about its specification.

Conventions of the embedding:
* Go machine integers: the balance amount is a Go int, modelled as Int
  (all operations on it here stay far from the 64-bit bounds and shrink
  absolute values, so no wrap is reachable); the nonce is a Go uint64,
  modelled as Nat with an explicit % 2^64 at the one place it is
  incremented.
* Addresses, private keys and transaction hashes are opaque identifiers,
  modelled as Nat.
* Effects of the environment (the random source, the fresh key pair from
  crypto.MustGenerateShardKeyPair, the outcome of util.GenerateTx and
  util.SendTx) are passed in as an explicit oracle record, one per call
  to send.
* rand.Intn(n) panics when n <= 0 and otherwise returns a value in
  [0, n); it is modelled as an Option-valued function of an oracle seed,
  none standing for the panic.
-/

namespace SendTx

/-- Modulus of Go's uint64, used where the source increments a uint64. -/
def u64Mod : Nat := 2 ^ 64

/-- One second in nanoseconds, as in Go's time.Second. -/
def timeSecond : Nat := 1000000000

/-- The cool-down before confirmed balances are recycled:
var confirmTime = 2 * time.Minute in loopCheckMode1. -/
def confirmTime : Nat := 120 * timeSecond

/-- The balance struct of sendtx.go: per-account record of address,
signing key, spendable amount, shard, next nonce, last submitted
transaction hash and the packed flag. -/
structure Balance where
  address : Nat
  privateKey : Nat
  amount : Int
  shard : Nat
  nonce : Nat
  tx : Option Nat
  packed : Bool
deriving DecidableEq, Repr

/-- Oracle for one call to send: the seed drawn by rand.Intn, the fresh
key pair generated for the beneficiary, whether util.GenerateTx errors,
the hash of the generated transaction, and the (ok, err) outcome of
util.SendTx. -/
structure SendEnv where
  rand : Nat
  newAddress : Nat
  newKey : Nat
  genErr : Bool
  txHash : Nat
  sendOk : Bool
  sendErr : Bool
deriving DecidableEq, Repr

/-- Go's rand.Intn: panics (none) when the bound is not positive,
otherwise returns a value in [0, bound); the oracle seed r selects
which one. -/
def randIntn (r : Nat) (n : Int) : Option Int :=
  if n ≤ 0 then none else some ((r : Int) % n)

/-- The amount chosen at the top of send: rand.Intn(b.amount) in mode 1,
the full b.amount in mode 3, and the constant 1 otherwise (mode 2). -/
def sendAmount (mode : Nat) (env : SendEnv) (b : Balance) : Option Int :=
  if mode = 1 then randIntn env.rand b.amount
  else if mode = 3 then some b.amount
  else some 1

/-- The fresh beneficiary record built in send before submission: new
address and key on the source's shard, the chosen amount, nonce 0, no
transaction hash, not packed. -/
def freshBeneficiary (env : SendEnv) (b : Balance) (amount : Int) : Balance :=
  { address := env.newAddress
    privateKey := env.newKey
    amount := amount
    shard := b.shard
    nonce := 0
    tx := none
    packed := false }

/-- The remainder of send once the amount is fixed: on a GenerateTx
error or a SendTx failure (not ok, or an RPC error) return the source
unchanged with the hash-less beneficiary; on success increment the
source's nonce, subtract the amount, and record the transaction hash on
the beneficiary. Returns (updated source, returned beneficiary). -/
def sendWith (env : SendEnv) (b : Balance) (amount : Int) : Balance × Balance :=
  if env.genErr then (b, freshBeneficiary env b amount)
  else if !env.sendOk || env.sendErr then (b, freshBeneficiary env b amount)
  else ({ b with nonce := (b.nonce + 1) % u64Mod, amount := b.amount - amount },
        { freshBeneficiary env b amount with tx := some env.txHash })

/-- send from sendtx.go: choose the amount for the active mode (none
models the rand.Intn panic on a non-positive balance in mode 1), then
run the submission path. -/
def send (mode : Nat) (env : SendEnv) (b : Balance) : Option (Balance × Balance) :=
  (sendAmount mode env b).map (sendWith env b)

/-- A submission cycle fails when transaction generation errors, the
ledger does not accept the transaction, or the RPC call errors. -/
def sendFails (env : SendEnv) : Prop :=
  env.genErr = true ∨ env.sendOk = false ∨ env.sendErr = true

instance (env : SendEnv) : Decidable (sendFails env) := by
  unfold sendFails; infer_instance

/-- Iterated send cycles on one source entry: runs send once per oracle,
threading the updated source, and collects the returned beneficiaries in
order; none models a rand.Intn panic aborting the run. -/
def runCycles (mode : Nat) : Balance → List SendEnv → Option (Balance × List Balance)
  | b, [] => some (b, [])
  | b, e :: es =>
    match send mode e b with
    | none => none
    | some (b', nb) =>
      match runCycles mode b' es with
      | none => none
      | some p => some (p.1, nb :: p.2)

/-- The nonces handed to util.GenerateTx for the submissions the ledger
accepted, in order, along a run of send cycles on one source entry: a
cycle contributes the source's current nonce exactly when it returns a
beneficiary carrying a transaction hash. -/
def nonceTrace (mode : Nat) : Balance → List SendEnv → List Nat
  | _, [] => []
  | b, e :: es =>
    match send mode e b with
    | none => []
    | some (b', nb) =>
      if nb.tx = none then nonceTrace mode b' es
      else b.nonce :: nonceTrace mode b' es

/-- One pass of the send loop of loopSendMode1_2 over a snapshot of the
worker's pool: send to each entry in order (oracle indexed by position),
and collect on the channel the beneficiaries that, in mode 1, have a
positive amount. Returns (updated entries, channel contents); none
models a rand.Intn panic. -/
def sendPass (mode : Nat) (envs : Nat → SendEnv) (i : Nat) : List Balance → Option (List Balance × List Balance)
  | [] => some ([], [])
  | b :: rest =>
    match send mode (envs i) b with
    | none => none
    | some (b', nb) =>
      match sendPass mode envs (i + 1) rest with
      | none => none
      | some p =>
        some (b' :: p.1,
          if mode = 1 then (if 0 < nb.amount then nb :: p.2 else p.2) else p.2)

/-- Outcome of one util.GetTransactionByHash RPC call: the decoded
result map (modelled as an association list of string fields) and the
error flag. -/
structure RpcResponse where
  result : List (String × String)
  err : Bool

/-- Modelled from the spec: util.GetTransactionByHash lives in cmd/util,
outside the sources in scope. Per the spec's external interface, a query
returns a transaction object carrying a status of block or pool, or
reports the transaction absent; a call that errors carries no
transaction object, so its result map is empty. -/
def rpcErrImpliesEmpty (resp : RpcResponse) : Prop :=
  resp.err = true → resp.result = []

/-- getTx from sendtx.go: performs the RPC call; on error it only logs
and returns the result map it was handed, so the caller sees the result
map in both branches, with the error discarded. -/
def getTx (resp : RpcResponse) : List (String × String) :=
  resp.result

/-- Lookup of the status field of a result map, as in Go's
result with key status. -/
def statusOf (r : List (String × String)) : Option String :=
  (r.find? (fun p => p.1 = "status")).map Prod.snd

/-- getIncludedAndPendingBalance from sendtx.go: walks the queued
entries in order; entries without a transaction hash are skipped; for
the rest the status is queried, a non-empty result with status block
goes to the included list, a non-empty result with status pool goes to
the pending list, and anything else (empty result, or another status)
goes to neither. The oracle rpc gives each entry's RPC outcome. -/
def getIncludedAndPendingBalance (rpc : Balance → RpcResponse) : List Balance → List Balance × List Balance
  | [] => ([], [])
  | b :: rest =>
    let ip := getIncludedAndPendingBalance rpc rest
    match b.tx with
    | none => ip
    | some _ =>
      let result := getTx (rpc b)
      if 0 < result.length then
        if statusOf result = some "block" then (b :: ip.1, ip.2)
        else if statusOf result = some "pool" then (ip.1, b :: ip.2)
        else ip
      else ip

/-- The mode-1 system state. workerPool is the local balanceList slice
variable of loopSendMode1_2 and monitorPool the local balanceList slice
variable of loopCheckMode1: in Go each function parameter is its own
slice header, the worker rebinds its variable each pass to a freshly
allocated filtered slice, and the monitor's append rebinds only the
monitor's variable (the backing array is full at creation, so append
always reallocates), so list membership is per-variable and the two
variables are modelled as separate fields. toPacked is the monitor's
queue of not-yet-classified entries and toConfirm its time-bucketed map
of included entries (association list keyed by timestamp; Go map
insertion at a fresh time.Now() key is modelled by consing in front). -/
structure Mode1State where
  workerPool : List Balance
  monitorPool : List Balance
  toPacked : List Balance
  toConfirm : List (Nat × List Balance)
deriving DecidableEq, Repr

/-- The bucket stored under a given timestamp key. -/
def bucketAt (t : Nat) (m : List (Nat × List Balance)) : List Balance :=
  ((m.find? (fun kv => kv.1 = t)).map Prod.snd).getD []

/-- The checkPack tick of loopCheckMode1: classify the queued entries,
store the included ones in a bucket keyed by the current timestamp, and
keep the pending ones as the new queue. -/
def checkPackStep (rpc : Balance → RpcResponse) (now : Nat) (s : Mode1State) : Mode1State :=
  let ip := getIncludedAndPendingBalance rpc s.toPacked
  { s with toPacked := ip.2, toConfirm := (now, ip.1) :: s.toConfirm }

/-- The confirm tick of loopCheckMode1: every bucket whose age exceeds
confirmTime is deleted from the map and its entries are appended to the
monitor goroutine's balanceList variable, which is the monitorPool field
(see Mode1State: the worker's variable is untouched by this statement). -/
def confirmSweep (now : Nat) (s : Mode1State) : Mode1State :=
  { s with
    monitorPool := s.monitorPool ++
      ((s.toConfirm.filter (fun kv => decide (confirmTime < now - kv.1))).map Prod.snd).flatten
    toConfirm := s.toConfirm.filter (fun kv => !decide (confirmTime < now - kv.1)) }

/-- End of a pass of loopSendMode1_2: the worker rebinds its own
balanceList variable to the entries with positive amount, and the
channel contents reach the monitor's queue. -/
def workerPassEnd (sent : List Balance) (channel : List Balance) (s : Mode1State) : Mode1State :=
  { s with workerPool := sent.filter (fun b => decide (0 < b.amount))
           toPacked := s.toPacked ++ channel }

/-- State of the per-worker rate limiter in loopSendMode1_2: the running
count (the local variable count) and the window-start time. -/
structure ThrottleState where
  count : Nat
  windowStart : Nat
deriving DecidableEq, Repr

/-- The throttle block after one send (lines 174 to 184 of sendtx.go):
increment the count; when it reaches the tps ceiling, sleep for the
remainder of the second if less than a second has elapsed since the
window start, then reset the count to 0 and the window start to the
wake-up time. Returns the new state and the sleep duration in
nanoseconds. -/
def throttleStep (tps : Nat) (now : Nat) (s : ThrottleState) : ThrottleState × Nat :=
  let c := s.count + 1
  if c = tps then
    let elapse := now - s.windowStart
    let sleep := if elapse < timeSecond then timeSecond - elapse else 0
    ({ count := 0, windowStart := now + sleep }, sleep)
  else
    ({ count := c, windowStart := s.windowStart }, 0)

/-- The limiter state actually present in the source when two workers
run loopSendMode1_2: each worker's count is a local variable, but
tpsStartTime is a single package-level global shared by both. -/
structure TwoWorkerTps where
  tpsStartTime : Nat
  countA : Nat
  countB : Nat
deriving DecidableEq, Repr

/-- Worker A's throttle block as written: reads and writes the shared
global tpsStartTime, while the count it touches is its own local. -/
def workerAThrottle (tps : Nat) (now : Nat) (s : TwoWorkerTps) : TwoWorkerTps × Nat :=
  let c := s.countA + 1
  if c = tps then
    let elapse := now - s.tpsStartTime
    let sleep := if elapse < timeSecond then timeSecond - elapse else 0
    ({ s with countA := 0, tpsStartTime := now + sleep }, sleep)
  else
    ({ s with countA := c }, 0)

/-- Worker B's throttle block as written: same shared global
tpsStartTime, its own local count. -/
def workerBThrottle (tps : Nat) (now : Nat) (s : TwoWorkerTps) : TwoWorkerTps × Nat :=
  let c := s.countB + 1
  if c = tps then
    let elapse := now - s.tpsStartTime
    let sleep := if elapse < timeSecond then timeSecond - elapse else 0
    ({ s with countB := 0, tpsStartTime := now + sleep }, sleep)
  else
    ({ s with countB := c }, 0)

/-! Helper lemmas about a single call to send. -/

lemma sendWith_of_fails (env : SendEnv) (b : Balance) (a : Int) (h : sendFails env) :
    sendWith env b a = (b, freshBeneficiary env b a) := by
  unfold sendWith
  split_ifs with h1 h2
  · rfl
  · rfl
  · exfalso
    rcases h with h | h | h
    · exact h1 h
    · exact h2 (by simp [h])
    · exact h2 (by simp [h])

lemma sendWith_of_success (env : SendEnv) (b : Balance) (a : Int)
    (hg : env.genErr = false) (ho : env.sendOk = true) (he : env.sendErr = false) :
    sendWith env b a =
      ({ b with nonce := (b.nonce + 1) % u64Mod, amount := b.amount - a },
       { freshBeneficiary env b a with tx := some env.txHash }) := by
  simp [sendWith, hg, ho, he]

lemma sendWith_snd_amount (env : SendEnv) (b : Balance) (a : Int) :
    (sendWith env b a).2.amount = a := by
  unfold sendWith freshBeneficiary
  split_ifs <;> rfl

lemma send_cases (mode : Nat) (env : SendEnv) (b b' nb : Balance)
    (h : send mode env b = some (b', nb)) :
    (b' = b ∧ nb.tx = none) ∨
      (b'.nonce = (b.nonce + 1) % u64Mod ∧ b'.amount = b.amount - nb.amount ∧
        nb.tx = some env.txHash) := by
  rcases Option.map_eq_some'.mp h with ⟨a, _, hw⟩
  unfold sendWith at hw
  split_ifs at hw
  · injection hw with hw1 hw2
    subst hw2
    exact Or.inl ⟨hw1.symm, rfl⟩
  · injection hw with hw1 hw2
    subst hw2
    exact Or.inl ⟨hw1.symm, rfl⟩
  · injection hw with hw1 hw2
    subst hw1
    subst hw2
    exact Or.inr ⟨rfl, rfl, rfl⟩

lemma sendAmount_mode1 (env : SendEnv) (b : Balance) (h : 0 < b.amount) :
    ∃ a, sendAmount 1 env b = some a ∧ 0 ≤ a ∧ a < b.amount := by
  refine ⟨(env.rand : Int) % b.amount, ?_, ?_, ?_⟩
  · simp [sendAmount, randIntn, h.not_le]
  · exact Int.emod_nonneg _ (ne_of_gt h)
  · exact Int.emod_lt_of_pos _ h

lemma send_mode1_pos (env : SendEnv) (b : Balance) (h : 0 < b.amount) :
    ∃ b' nb, send 1 env b = some (b', nb) ∧ 0 < b'.amount ∧
      0 ≤ nb.amount ∧ nb.amount < b.amount := by
  rcases sendAmount_mode1 env b h with ⟨a, ha, h0, hlt⟩
  refine ⟨(sendWith env b a).1, (sendWith env b a).2, by simp [send, ha], ?_,
    by rw [sendWith_snd_amount]; exact h0, by rw [sendWith_snd_amount]; exact hlt⟩
  unfold sendWith
  split_ifs
  · exact h
  · exact h
  · exact sub_pos.mpr hlt

/-- Claim C2: in every mode, a failed submission (generation error,
not-accepted, or RPC error) returns a hash-less beneficiary and leaves
the source entry exactly as it was, and this persists over any number of
failed cycles. The hypothesis on mode 1 reflects that mode-1 sources in
the pool have positive amounts (see C10). -/
theorem C2_failed_cycles_leave_source_unchanged (mode : Nat) (b : Balance)
    (envs : List SendEnv) (hfail : ∀ e ∈ envs, sendFails e)
    (hpos : mode = 1 → 0 < b.amount) :
    ∃ nbs, runCycles mode b envs = some (b, nbs) ∧ ∀ nb ∈ nbs, nb.tx = none := by
  induction envs with
  | nil => exact ⟨[], rfl, by simp⟩
  | cons e es ih =>
    have he : sendFails e := hfail e (List.mem_cons_self ..)
    obtain ⟨a, ha⟩ : ∃ a, sendAmount mode e b = some a := by
      by_cases hm : mode = 1
      · subst hm
        rcases sendAmount_mode1 e b (hpos rfl) with ⟨a, ha, _, _⟩
        exact ⟨a, ha⟩
      · by_cases hm3 : mode = 3
        · exact ⟨b.amount, by simp [sendAmount, hm, hm3]⟩
        · exact ⟨1, by simp [sendAmount, hm, hm3]⟩
    have hsend : send mode e b = some (b, freshBeneficiary e b a) := by
      simp [send, ha, sendWith_of_fails e b a he]
    rcases ih (fun x hx => hfail x (List.mem_cons_of_mem _ hx)) with ⟨nbs, hrun, htx⟩
    refine ⟨freshBeneficiary e b a :: nbs, ?_, ?_⟩
    · simp [runCycles, hsend, hrun]
    · intro nb hnb
      rcases List.mem_cons.mp hnb with h | h
      · subst h; rfl
      · exact htx nb h

def c2Balance : Balance := ⟨1, 2, 5, 0, 3, none, false⟩

def c2Envs : List SendEnv :=
  [⟨4, 10, 11, true, 90, true, false⟩,
   ⟨2, 12, 13, false, 91, false, false⟩,
   ⟨3, 14, 15, false, 92, true, true⟩]

/-- Witness for C2 at a concrete mode-1 source and three failed cycles
(one generation error, one not-accepted, one RPC error). -/
theorem C2_failed_cycles_leave_source_unchanged_witness :
    ((∀ e ∈ c2Envs, sendFails e) ∧ ((1 : Nat) = 1 → 0 < c2Balance.amount)) ∧
      ∃ nbs, runCycles 1 c2Balance c2Envs = some (c2Balance, nbs) ∧
        ∀ nb ∈ nbs, nb.tx = none :=
  ⟨by decide,
   C2_failed_cycles_leave_source_unchanged 1 c2Balance c2Envs (by decide) (by decide)⟩

/-- Claim C8: in every mode, on a successful submission send subtracts
the chosen amount (recorded as the beneficiary's amount) from the
source, increments the source's nonce by one, and returns a beneficiary
carrying the transaction hash and nonce 0. The uint64 increment is exact
below 2^64. -/
theorem C8_success_updates (mode : Nat) (env : SendEnv) (b b' nb : Balance)
    (h : send mode env b = some (b', nb))
    (hg : env.genErr = false) (ho : env.sendOk = true) (he : env.sendErr = false)
    (hn : b.nonce + 1 < u64Mod) :
    b'.amount = b.amount - nb.amount ∧ b'.nonce = b.nonce + 1 ∧
      nb.tx = some env.txHash ∧ nb.nonce = 0 := by
  rcases Option.map_eq_some'.mp h with ⟨a, _, hw⟩
  rw [sendWith_of_success env b a hg ho he] at hw
  injection hw with hw1 hw2
  subst hw1
  subst hw2
  exact ⟨rfl, Nat.mod_eq_of_lt hn, rfl, rfl⟩

def c8Balance : Balance := ⟨1, 2, 5, 0, 3, none, false⟩

def c8Env : SendEnv := ⟨4, 10, 11, false, 90, true, false⟩

/-- Witness for C8 at a concrete mode-1 source and a successful cycle:
the random draw is 4 mod 5 = 4, so the source drops from 5 to 1 and its
nonce from 3 to 4. -/
theorem C8_success_updates_witness :
    (send 1 c8Env c8Balance =
        some (⟨1, 2, 1, 0, 4, none, false⟩, ⟨10, 11, 4, 0, 0, some 90, false⟩) ∧
      c8Env.genErr = false ∧ c8Env.sendOk = true ∧ c8Env.sendErr = false ∧
      c8Balance.nonce + 1 < u64Mod) ∧
    ((⟨1, 2, 1, 0, 4, none, false⟩ : Balance).amount =
        c8Balance.amount - (⟨10, 11, 4, 0, 0, some 90, false⟩ : Balance).amount ∧
      (⟨1, 2, 1, 0, 4, none, false⟩ : Balance).nonce = c8Balance.nonce + 1 ∧
      (⟨10, 11, 4, 0, 0, some 90, false⟩ : Balance).tx = some c8Env.txHash ∧
      (⟨10, 11, 4, 0, 0, some 90, false⟩ : Balance).nonce = 0) :=
  ⟨by decide,
   C8_success_updates 1 c8Env c8Balance _ _ (by decide) (by decide) (by decide)
     (by decide) (by decide)⟩

def c4Balance : Balance := ⟨1, 2, 5, 0, 0, none, false⟩

def c4Env : SendEnv := ⟨0, 3, 4, true, 9, true, false⟩

/-- Counterexample to claim C4 as stated: with a positive spendable
amount of 5 and a random seed of 0, rand.Intn draws the amount 0, which
is not strictly greater than 0. -/
theorem C4_counterexample_amount_zero :
    0 < c4Balance.amount ∧
      send 1 c4Env c4Balance =
        some (c4Balance, freshBeneficiary c4Env c4Balance 0) ∧
      ¬ 0 < (freshBeneficiary c4Env c4Balance 0).amount := by
  decide

/-- Claim C4 as amended: in mode 1 the chosen amount (the amount field
of the returned beneficiary) satisfies 0 ≤ amount < spendableAmount;
rand.Intn draws from the half-open interval, so 0 is possible. -/
theorem C4_amended_amount_bounds (env : SendEnv) (b : Balance) (h : 0 < b.amount) :
    ∃ p, send 1 env b = some p ∧ 0 ≤ p.2.amount ∧ p.2.amount < b.amount := by
  rcases sendAmount_mode1 env b h with ⟨a, ha, h0, hlt⟩
  exact ⟨sendWith env b a, by simp [send, ha],
    by rw [sendWith_snd_amount]; exact h0,
    by rw [sendWith_snd_amount]; exact hlt⟩

def c4aBalance : Balance := ⟨1, 2, 7, 0, 0, none, false⟩

def c4aEnv : SendEnv := ⟨9, 3, 4, false, 9, true, false⟩

/-- Witness for the amended C4 at a concrete source with amount 7 and
seed 9: the drawn amount 2 lies in the half-open interval. -/
theorem C4_amended_amount_bounds_witness :
    0 < c4aBalance.amount ∧
      ∃ p, send 1 c4aEnv c4aBalance = some p ∧
        0 ≤ p.2.amount ∧ p.2.amount < c4aBalance.amount :=
  ⟨by decide, C4_amended_amount_bounds c4aEnv c4aBalance (by decide)⟩

/-- Claim C10: a mode-1 send pass over a pool of entries with strictly
positive amounts never hits the rand.Intn panic (the pass is defined),
every updated source entry still has a strictly positive amount (the
drawn amount is strictly below the pre-send amount, so sending never
zeroes a mode-1 source), and every beneficiary forwarded on the channel
has a positive amount. Entries enter the pool only with positive
amounts (initBalance, the channel guard, and the end-of-pass filter),
which the hypothesis captures. -/
theorem C10_mode1_pass_keeps_amounts_positive (envs : Nat → SendEnv) :
    ∀ (pool : List Balance) (i : Nat), (∀ b ∈ pool, 0 < b.amount) →
      ∃ pool' ch, sendPass 1 envs i pool = some (pool', ch) ∧
        (∀ b ∈ pool', 0 < b.amount) ∧ (∀ nb ∈ ch, 0 < nb.amount) := by
  intro pool
  induction pool with
  | nil => exact fun i _ => ⟨[], [], rfl, by simp, by simp⟩
  | cons b rest ih =>
    intro i hpos
    rcases send_mode1_pos (envs i) b (hpos b (List.mem_cons_self ..)) with
      ⟨b', nb, hsend, hb', _, _⟩
    rcases ih (i + 1) (fun x hx => hpos x (List.mem_cons_of_mem _ hx)) with
      ⟨pool', ch, hrec, hp', hc'⟩
    refine ⟨b' :: pool', if 0 < nb.amount then nb :: ch else ch, ?_, ?_, ?_⟩
    · simp [sendPass, hsend, hrec]
    · intro x hx
      rcases List.mem_cons.mp hx with h | h
      · subst h; exact hb'
      · exact hp' x h
    · intro x hx
      by_cases hnb : 0 < nb.amount
      · rw [if_pos hnb] at hx
        rcases List.mem_cons.mp hx with h | h
        · subst h; exact hnb
        · exact hc' x h
      · rw [if_neg hnb] at hx
        exact hc' x hx

def c10Pool : List Balance :=
  [⟨1, 2, 5, 0, 0, none, false⟩, ⟨3, 4, 9, 0, 7, none, false⟩]

def c10Envs : Nat → SendEnv := fun i => ⟨i + 3, 20 + i, 30 + i, false, 50 + i, true, false⟩

/-- Witness for C10 at a concrete two-entry pool with amounts 5 and 9. -/
theorem C10_mode1_pass_keeps_amounts_positive_witness :
    (∀ b ∈ c10Pool, 0 < b.amount) ∧
      ∃ pool' ch, sendPass 1 c10Envs 0 c10Pool = some (pool', ch) ∧
        (∀ b ∈ pool', 0 < b.amount) ∧ (∀ nb ∈ ch, 0 < nb.amount) :=
  ⟨by decide, C10_mode1_pass_keeps_amounts_positive c10Envs c10Pool 0 (by decide)⟩

/-! The nonce trace of a run of send cycles. -/

lemma nonceTrace_pairwise (mode : Nat) :
    ∀ (es : List SendEnv) (b : Balance), b.nonce + es.length ≤ u64Mod →
      (∀ x ∈ nonceTrace mode b es, b.nonce ≤ x) ∧
        List.Pairwise (· < ·) (nonceTrace mode b es) := by
  intro es
  induction es with
  | nil => intro b _; simp [nonceTrace]
  | cons e es ih =>
    intro b hb
    cases hsend : send mode e b with
    | none => simp [nonceTrace, hsend]
    | some p =>
      obtain ⟨b', nb⟩ := p
      rcases send_cases mode e b b' nb hsend with ⟨hb', htx⟩ | ⟨hn', _, htx⟩
      · have htr : nonceTrace mode b (e :: es) = nonceTrace mode b es := by
          simp [nonceTrace, hsend, htx, hb']
        rw [htr]
        exact ih b (by simp at hb; omega)
      · have htr : nonceTrace mode b (e :: es) = b.nonce :: nonceTrace mode b' es := by
          simp [nonceTrace, hsend, htx]
        rw [htr]
        have hone : b.nonce + 1 ≤ u64Mod := by simp at hb; omega
        rcases lt_or_eq_of_le hone with hlt | heq
        · have hn2 : b'.nonce = b.nonce + 1 := by rw [hn', Nat.mod_eq_of_lt hlt]
          have hrec := ih b' (by rw [hn2]; simp at hb; omega)
          constructor
          · intro x hx
            rcases List.mem_cons.mp hx with h | h
            · exact h.ge
            · have hx2 := hrec.1 x h
              rw [hn2] at hx2
              omega
          · refine List.pairwise_cons.mpr ⟨fun x hx => ?_, hrec.2⟩
            have hx2 := hrec.1 x hx
            rw [hn2] at hx2
            omega
        · have hlen : es.length = 0 := by simp at hb; omega
          rw [List.length_eq_zero.mp hlen]
          simp [nonceTrace]

/-- Claim C9: along any run of send cycles on one source entry, the
nonces used by the submissions the ledger accepted form a strictly
increasing sequence, so no two accepted submissions from the address
share a nonce (the nonce is only incremented, immediately after a
success). The hypothesis keeps the uint64 nonce below its wrap during
the run. -/
theorem C9_accepted_nonces_strictly_increasing (mode : Nat) (b : Balance)
    (es : List SendEnv) (h : b.nonce + es.length ≤ u64Mod) :
    List.Chain' (· < ·) (nonceTrace mode b es) ∧ (nonceTrace mode b es).Nodup := by
  have hp := (nonceTrace_pairwise mode es b h).2
  exact ⟨hp.chain', hp.imp ne_of_lt⟩

def c9Balance : Balance := ⟨1, 2, 9, 0, 5, none, false⟩

def c9Envs : List SendEnv :=
  [⟨4, 10, 11, false, 90, true, false⟩,
   ⟨2, 12, 13, false, 91, false, false⟩,
   ⟨3, 14, 15, false, 92, true, false⟩]

/-- Witness for C9 at a concrete run of three cycles (success, rejected,
success) starting from nonce 5: the accepted submissions use nonces 5
and 6. -/
theorem C9_accepted_nonces_strictly_increasing_witness :
    (c9Balance.nonce + c9Envs.length ≤ u64Mod) ∧
      List.Chain' (· < ·) (nonceTrace 1 c9Balance c9Envs) ∧
        (nonceTrace 1 c9Balance c9Envs).Nodup :=
  ⟨by decide, C9_accepted_nonces_strictly_increasing 1 c9Balance c9Envs (by decide)⟩

/-! Classification of queued entries by the monitor. -/

/-- An entry lands in the included list exactly when it carries a
transaction hash and its query returns a non-empty result whose status
field is block. -/
def classifyBlock (rpc : Balance → RpcResponse) (b : Balance) : Bool :=
  b.tx.isSome && decide (0 < (getTx (rpc b)).length) &&
    decide (statusOf (getTx (rpc b)) = some "block")

/-- An entry stays in the pending list exactly when it carries a
transaction hash and its query returns a non-empty result whose status
field is pool. -/
def classifyPool (rpc : Balance → RpcResponse) (b : Balance) : Bool :=
  b.tx.isSome && decide (0 < (getTx (rpc b)).length) &&
    decide (statusOf (getTx (rpc b)) = some "pool")

lemma gIPB_eq_filter (rpc : Balance → RpcResponse) :
    ∀ bs : List Balance,
      getIncludedAndPendingBalance rpc bs =
        (bs.filter (classifyBlock rpc), bs.filter (classifyPool rpc)) := by
  intro bs
  induction bs with
  | nil => rfl
  | cons c rest ih =>
    cases hc : c.tx with
    | none =>
      simp [getIncludedAndPendingBalance, List.filter_cons, classifyBlock, classifyPool,
        hc, ih]
    | some t =>
      by_cases hlen : 0 < (getTx (rpc c)).length
      · by_cases hblock : statusOf (getTx (rpc c)) = some "block"
        · have hpool : ¬ statusOf (getTx (rpc c)) = some "pool" := by simp [hblock]
          simp [getIncludedAndPendingBalance, List.filter_cons, classifyBlock,
            classifyPool, hc, hlen, hblock, hpool, ih]
        · by_cases hpool : statusOf (getTx (rpc c)) = some "pool"
          · simp [getIncludedAndPendingBalance, List.filter_cons, classifyBlock,
              classifyPool, hc, hlen, hblock, hpool, ih]
          · simp [getIncludedAndPendingBalance, List.filter_cons, classifyBlock,
              classifyPool, hc, hlen, hblock, hpool, ih]
      · simp [getIncludedAndPendingBalance, List.filter_cons, classifyBlock,
          classifyPool, hc, hlen, ih]

lemma mem_included_iff (rpc : Balance → RpcResponse) (bs : List Balance) (b : Balance) :
    b ∈ (getIncludedAndPendingBalance rpc bs).1 ↔
      b ∈ bs ∧ classifyBlock rpc b = true := by
  rw [gIPB_eq_filter]
  exact List.mem_filter

lemma mem_pending_iff (rpc : Balance → RpcResponse) (bs : List Balance) (b : Balance) :
    b ∈ (getIncludedAndPendingBalance rpc bs).2 ↔
      b ∈ bs ∧ classifyPool rpc b = true := by
  rw [gIPB_eq_filter]
  exact List.mem_filter

lemma bucketAt_checkPackStep (rpc : Balance → RpcResponse) (now : Nat) (s : Mode1State) :
    bucketAt now (checkPackStep rpc now s).toConfirm =
      (getIncludedAndPendingBalance rpc s.toPacked).1 := by
  unfold bucketAt checkPackStep
  rw [List.find?_cons_of_pos _ (by simp)]
  rfl

/-- Claim C7: for a queued entry carrying a transaction hash, one
checkPack poll classifies it exactly as: non-empty result with status
block puts it (only) in the bucket keyed by the current timestamp;
non-empty result with status pool keeps it (only) in the queue; an empty
result, or any other status, removes it from both. -/
theorem C7_poll_classification (rpc : Balance → RpcResponse) (now : Nat)
    (s : Mode1State) (b : Balance) (hb : b ∈ s.toPacked) (ht : b.tx ≠ none) :
    ((0 < (getTx (rpc b)).length ∧ statusOf (getTx (rpc b)) = some "block") →
        b ∈ bucketAt now (checkPackStep rpc now s).toConfirm ∧
          b ∉ (checkPackStep rpc now s).toPacked) ∧
    ((0 < (getTx (rpc b)).length ∧ statusOf (getTx (rpc b)) = some "pool") →
        b ∈ (checkPackStep rpc now s).toPacked ∧
          b ∉ bucketAt now (checkPackStep rpc now s).toConfirm) ∧
    ((0 < (getTx (rpc b)).length → statusOf (getTx (rpc b)) ≠ some "block" ∧
        statusOf (getTx (rpc b)) ≠ some "pool") →
        b ∉ (checkPackStep rpc now s).toPacked ∧
          b ∉ bucketAt now (checkPackStep rpc now s).toConfirm) := by
  have hsome : b.tx.isSome = true := Option.ne_none_iff_isSome.mp ht
  have hpacked : (checkPackStep rpc now s).toPacked =
      (getIncludedAndPendingBalance rpc s.toPacked).2 := rfl
  rw [bucketAt_checkPackStep, hpacked]
  refine ⟨?_, ?_, ?_⟩
  · rintro ⟨hlen, hblock⟩
    constructor
    · rw [mem_included_iff]
      exact ⟨hb, by simp [classifyBlock, hsome, hlen, hblock]⟩
    · rw [mem_pending_iff]
      rintro ⟨-, hc⟩
      simp [classifyPool, hsome, hlen, hblock] at hc
  · rintro ⟨hlen, hpool⟩
    constructor
    · rw [mem_pending_iff]
      exact ⟨hb, by simp [classifyPool, hsome, hlen, hpool]⟩
    · rw [mem_included_iff]
      rintro ⟨-, hc⟩
      simp [classifyBlock, hsome, hlen, hpool] at hc
  · intro hother
    constructor
    · rw [mem_pending_iff]
      rintro ⟨-, hc⟩
      simp only [classifyPool, Bool.and_eq_true, decide_eq_true_eq] at hc
      exact (hother hc.1.2).2 hc.2
    · rw [mem_included_iff]
      rintro ⟨-, hc⟩
      simp only [classifyBlock, Bool.and_eq_true, decide_eq_true_eq] at hc
      exact (hother hc.1.2).1 hc.2

def c7Balance : Balance := ⟨1, 2, 3, 0, 0, some 7, false⟩

def c7Rpc : Balance → RpcResponse := fun _ => ⟨[("status", "block")], false⟩

def c7State : Mode1State :=
  { workerPool := [], monitorPool := [], toPacked := [c7Balance], toConfirm := [] }

/-- Witness for C7 at a concrete queued entry whose query reports
status block. -/
theorem C7_poll_classification_witness :
    (c7Balance ∈ c7State.toPacked ∧ c7Balance.tx ≠ none) ∧
    (((0 < (getTx (c7Rpc c7Balance)).length ∧
          statusOf (getTx (c7Rpc c7Balance)) = some "block") →
        c7Balance ∈ bucketAt 44 (checkPackStep c7Rpc 44 c7State).toConfirm ∧
          c7Balance ∉ (checkPackStep c7Rpc 44 c7State).toPacked) ∧
      ((0 < (getTx (c7Rpc c7Balance)).length ∧
          statusOf (getTx (c7Rpc c7Balance)) = some "pool") →
        c7Balance ∈ (checkPackStep c7Rpc 44 c7State).toPacked ∧
          c7Balance ∉ bucketAt 44 (checkPackStep c7Rpc 44 c7State).toConfirm) ∧
      ((0 < (getTx (c7Rpc c7Balance)).length →
          statusOf (getTx (c7Rpc c7Balance)) ≠ some "block" ∧
            statusOf (getTx (c7Rpc c7Balance)) ≠ some "pool") →
        c7Balance ∉ (checkPackStep c7Rpc 44 c7State).toPacked ∧
          c7Balance ∉ bucketAt 44 (checkPackStep c7Rpc 44 c7State).toConfirm)) :=
  ⟨⟨by decide, by decide⟩,
   C7_poll_classification c7Rpc 44 c7State c7Balance (by decide) (by decide)⟩

def c5Balance : Balance := ⟨1, 2, 3, 0, 0, some 7, false⟩

def c5Rpc : Balance → RpcResponse := fun _ => ⟨[], true⟩

/-- Counterexample to claim C5 as stated: a queued entry whose
confirmation query errors (and so comes back with an empty result map)
is not kept in the not-yet-classified queue: the poll returns an empty
pending list, so the entry is dropped rather than re-polled. -/
theorem C5_counterexample_error_drops_entry :
    (c5Rpc c5Balance).err = true ∧
      getIncludedAndPendingBalance c5Rpc [c5Balance] = ([], []) ∧
      c5Balance ∉ (getIncludedAndPendingBalance c5Rpc [c5Balance]).2 := by
  decide

/-- Claim C5 as amended: when the confirmation-status query for a queued
entry errors, the error is only logged and the empty result that
accompanies it makes the poll remove the entry from both the included
bucket and the queue — it is discarded exactly like an unknown
transaction, not re-polled. -/
theorem C5_amended_error_discards_entry (rpc : Balance → RpcResponse)
    (bs : List Balance) (b : Balance) (herr : (rpc b).err = true)
    (hmodel : rpcErrImpliesEmpty (rpc b)) :
    b ∉ (getIncludedAndPendingBalance rpc bs).1 ∧
      b ∉ (getIncludedAndPendingBalance rpc bs).2 := by
  have hres : getTx (rpc b) = [] := hmodel herr
  constructor
  · rw [mem_included_iff]
    rintro ⟨-, hc⟩
    simp [classifyBlock, hres] at hc
  · rw [mem_pending_iff]
    rintro ⟨-, hc⟩
    simp [classifyPool, hres] at hc

/-- Witness for the amended C5 at a concrete queued entry and an
errored query. -/
theorem C5_amended_error_discards_entry_witness :
    ((c5Rpc c5Balance).err = true ∧ rpcErrImpliesEmpty (c5Rpc c5Balance)) ∧
      (c5Balance ∉ (getIncludedAndPendingBalance c5Rpc [c5Balance]).1 ∧
        c5Balance ∉ (getIncludedAndPendingBalance c5Rpc [c5Balance]).2) :=
  ⟨⟨by decide, fun _ => rfl⟩,
   C5_amended_error_discards_entry c5Rpc [c5Balance] c5Balance (by decide)
     (fun _ => rfl)⟩

def c1Entry : Balance := ⟨5, 6, 4, 0, 0, some 77, true⟩

def c1Worker : Balance := ⟨8, 9, 2, 0, 1, none, false⟩

def c1State : Mode1State :=
  { workerPool := [c1Worker], monitorPool := [],
    toPacked := [], toConfirm := [(0, [c1Entry])] }

/-- Claim C1 evaluated at its failing input: an included entry sits in a
bucket stamped 0 and the confirm sweep fires at 121 seconds, past the 2
minute cool-down. The sweep appends the entry, exactly once, to the
monitor goroutine's local balanceList (monitorPool) and deletes the
bucket, and a later sweep does not append it again — but the worker's
balanceList, the pool the sending loop iterates, is unchanged by every
sweep (final conjunct), so the recycled amount never reappears in the
pool the worker draws new sends from, contrary to the claim and to the
mode-1 comment in the source. -/
theorem C1_sweep_never_reaches_worker_pool :
    (confirmSweep (121 * timeSecond) c1State).monitorPool.count c1Entry = 1 ∧
    (confirmSweep (121 * timeSecond) c1State).toConfirm = [] ∧
    c1Entry ∉ (confirmSweep (121 * timeSecond) c1State).workerPool ∧
    (confirmSweep (200 * timeSecond)
        (confirmSweep (121 * timeSecond) c1State)).monitorPool.count c1Entry = 1 ∧
    c1Entry ∉ (confirmSweep (200 * timeSecond)
        (confirmSweep (121 * timeSecond) c1State)).workerPool ∧
    ∀ (now : Nat) (s : Mode1State), (confirmSweep now s).workerPool = s.workerPool := by
  exact ⟨by decide, by decide, by decide, by decide, by decide, fun now s => rfl⟩

/-- Claim C3: when the running count reaches the tps ceiling with less
than a second elapsed since the window start, the throttle sleeps for
exactly the remaining portion of the second (so at least the remaining
time and at most the full second), then resets the count to 0 and the
window start to the wake-up time; and (final conjunct) a throttle step
never lets the running count reach the ceiling between resets, so no
completed window holds more than the ceiling's worth of sends. -/
theorem C3_throttle_sleeps_remainder (tps now : Nat) (s : ThrottleState)
    (hc : s.count + 1 = tps) (hw : s.windowStart ≤ now)
    (he : now - s.windowStart < timeSecond) :
    (throttleStep tps now s).2 = timeSecond - (now - s.windowStart) ∧
    now - s.windowStart + (throttleStep tps now s).2 = timeSecond ∧
    (throttleStep tps now s).2 ≤ timeSecond ∧
    0 < (throttleStep tps now s).2 ∧
    (throttleStep tps now s).1.count = 0 ∧
    (throttleStep tps now s).1.windowStart = now + (throttleStep tps now s).2 ∧
    (∀ (tps2 now2 : Nat) (s2 : ThrottleState), s2.count < tps2 →
      (throttleStep tps2 now2 s2).1.count < tps2) := by
  have ht : throttleStep tps now s =
      ({ count := 0, windowStart := now + (timeSecond - (now - s.windowStart)) },
        timeSecond - (now - s.windowStart)) := by
    simp [throttleStep, hc, he]
  rw [ht]
  refine ⟨rfl, by omega, by omega, by omega, rfl, rfl, ?_⟩
  intro tps2 now2 s2 h2
  by_cases hcond : s2.count + 1 = tps2
  · have h0 : (throttleStep tps2 now2 s2).1.count = 0 := by
      simp [throttleStep, hcond]
    omega
  · have h0 : (throttleStep tps2 now2 s2).1.count = s2.count + 1 := by
      simp [throttleStep, hcond]
    omega

def c3State : ThrottleState := ⟨2, 0⟩

/-- Witness for C3 with a ceiling of 3: the third send of the window
lands at 0.6 seconds, so the throttle sleeps the remaining 0.4 seconds
and resets the window. -/
theorem C3_throttle_sleeps_remainder_witness :
    (c3State.count + 1 = 3 ∧ c3State.windowStart ≤ 600000000 ∧
      600000000 - c3State.windowStart < timeSecond) ∧
    ((throttleStep 3 600000000 c3State).2 =
        timeSecond - (600000000 - c3State.windowStart) ∧
      600000000 - c3State.windowStart + (throttleStep 3 600000000 c3State).2 =
        timeSecond ∧
      (throttleStep 3 600000000 c3State).2 ≤ timeSecond ∧
      0 < (throttleStep 3 600000000 c3State).2 ∧
      (throttleStep 3 600000000 c3State).1.count = 0 ∧
      (throttleStep 3 600000000 c3State).1.windowStart =
        600000000 + (throttleStep 3 600000000 c3State).2 ∧
      (∀ (tps2 now2 : Nat) (s2 : ThrottleState), s2.count < tps2 →
        (throttleStep tps2 now2 s2).1.count < tps2)) :=
  ⟨⟨by decide, by decide, by decide⟩,
   C3_throttle_sleeps_remainder 3 600000000 c3State (by decide) (by decide)
     (by decide)⟩

def c6Shared0 : TwoWorkerTps := ⟨0, 0, 0⟩

/-- Counterexample to claim C6 as stated: with a tps ceiling of 1 and
both workers starting their windows at time 0, worker A throttles at 0.9
seconds, sleeping 0.1 seconds and writing the shared global tpsStartTime
to 1.0 seconds; when worker B throttles at 1.5 seconds it reads the
window start A wrote and sleeps 0.5 seconds, whereas an independent
limiter instance (its window start still 0) would not sleep at all. A
throttle in one worker thus resets window state another worker reads,
and several workers do not behave like several independent instances. -/
theorem C6_counterexample_shared_window_start :
    (workerBThrottle 1 1500000000 (workerAThrottle 1 900000000 c6Shared0).1).2 =
        500000000 ∧
      (throttleStep 1 1500000000 ⟨0, 0⟩).2 = 0 ∧
      (workerBThrottle 1 1500000000 (workerAThrottle 1 900000000 c6Shared0).1).2 ≠
        (throttleStep 1 1500000000 ⟨0, 0⟩).2 := by
  decide

/-- Claim C6 as amended: the running count is private to each worker
(one worker's throttle never changes the other's count, and a worker's
own count and sleep follow the single-limiter model applied to its count
paired with the shared start), but the window-start timestamp is the
single package-level global tpsStartTime, written by whichever worker
throttles; behaviour matches independent instances only while a single
worker runs. -/
theorem C6_amended_count_private_start_shared (tps now : Nat) (s : TwoWorkerTps) :
    (workerAThrottle tps now s).1.countB = s.countB ∧
    (workerBThrottle tps now s).1.countA = s.countA ∧
    (workerAThrottle tps now s).1.countA =
      (throttleStep tps now ⟨s.countA, s.tpsStartTime⟩).1.count ∧
    (workerAThrottle tps now s).1.tpsStartTime =
      (throttleStep tps now ⟨s.countA, s.tpsStartTime⟩).1.windowStart ∧
    (workerAThrottle tps now s).2 =
      (throttleStep tps now ⟨s.countA, s.tpsStartTime⟩).2 := by
  unfold workerAThrottle workerBThrottle throttleStep
  dsimp only
  split_ifs <;> simp

end SendTx
